import Mathlib

/-!
Shallow embedding of the NEO CommandContainer / indirect-heap subsystem
(Intel compute-runtime, `shared/source/command_container`).  The container
implementation ships outside this source snapshot, so the operational
definitions below are modelled from the specification, with the unit tests of
`command_container_tests.cpp` pinning down the observable behaviour.
Machine sizes are modelled as `Nat`; pointers are modelled as numeric
addresses handed out by the memory manager; `UNRECOVERABLE_IF` (a thrown
exception in the tests) is modelled as an `Option`/`none` result.
-/

/-- Modelled from the spec: `MemoryConstants::kiloByte`. -/
def kiloByte : Nat := 1024

/-- Modelled from the spec: `MemoryConstants::pageSize` (4 KiB). -/
def pageSize : Nat := 4096

/-- Modelled from the spec: `MemoryConstants::pageSize64k` (64 KiB). -/
def pageSize64k : Nat := 65536

/-- Modelled from the spec: `MemoryConstants::cacheLineSize`. -/
def cacheLineSize : Nat := 64

/-- Modelled from the spec: `CSRequirements::csOverfetchSize`. -/
def csOverfetchSize : Nat := pageSize

/-- Modelled from the spec: `CommandContainer::defaultListCmdBufferSize`. -/
def defaultListCmdBufferSize : Nat := 256 * kiloByte

/-- Modelled from the spec: `CommandContainer::cmdBufferReservedSize`, the
fixed reserved tail kept for a terminating batch-buffer-end marker. -/
def cmdBufferReservedSize : Nat := cacheLineSize + csOverfetchSize

/-- Modelled from the spec: `CommandContainer::totalCmdBufferSize`. -/
def totalCmdBufferSize : Nat := defaultListCmdBufferSize + cmdBufferReservedSize

/-- Modelled from the spec: default size of a heap backing allocation. -/
def defaultHeapSize : Nat := pageSize64k

/-- `alignUp<size_t>(x, a)`: round `x` up to the next multiple of `a`. -/
def alignUpN (x a : Nat) : Nat := ((x + a - 1) / a) * a

/-- Granule used by the modelled memory manager when laying out CPU/GPU
addresses of allocations; every allocation is `allocGranule`-aligned. -/
def allocGranule : Nat := 2 ^ 20

/-- Start of the modelled GPU address range for standalone allocations. -/
def gpuAddrBase : Nat := 2 ^ 32

/-- Modelled from the spec: `getInternalHeapBaseAddress` — the fixed GPU base
address of the internal (indirect-object) heap window, shared by every
internal-heap allocation. -/
def internalHeapBase : Nat := 2 ^ 40

/-- `uint32_t` all-ones value used for the dirty-heaps bitmask. -/
def uint32Max : Nat := 2 ^ 32 - 1

/-- Heap types of the indirect heaps (`IndirectHeap::Type`), in enum order
`DYNAMIC_STATE = 0`, `INDIRECT_OBJECT = 1`, `SURFACE_STATE = 2`. -/
inductive HeapType where
  | dynamicState
  | indirectObject
  | surfaceState
deriving DecidableEq, Repr

/-- Bit position of a heap type inside the dirty-heaps bitmask (its enum
value). -/
def heapBitIndex : HeapType → Nat
  | .dynamicState => 0
  | .indirectObject => 1
  | .surfaceState => 2

/-- Allocation-type tags relevant to this subsystem. -/
inductive AllocationType where
  | commandBuffer
  | linearStream
  | internalHeap
  | unknown
deriving DecidableEq, Repr

/-- A GPU-visible memory region produced by the memory manager.  `id` is the
allocation's identity (the pointer value of the `GraphicsAllocation` object);
`taskCount` is the last-known submission sequence number. -/
structure GraphicsAllocation where
  id : Nat
  size : Nat
  allocType : AllocationType
  gpuAddress : Nat
  cpuAddress : Nat
  taskCount : Nat
deriving DecidableEq, Repr

/-- The memory-manager collaborator.  `successesLeft = some k` models
`FailMemoryManager(k)`: the next `k` allocations succeed and every later one
fails; `none` models an unbounded manager.  `allocateCalls` counts calls to
`allocateGraphicsMemoryWithProperties`. -/
structure MemoryManager where
  nextId : Nat := 0
  successesLeft : Option Nat := none
  allocateCalls : Nat := 0
deriving DecidableEq, Repr

/-- Fresh allocation record laid out by the modelled memory manager. -/
def mkAllocation (idx size : Nat) (ty : AllocationType) : GraphicsAllocation :=
  { id := idx
    size := size
    allocType := ty
    gpuAddress := gpuAddrBase + idx * allocGranule
    cpuAddress := (idx + 1) * allocGranule
    taskCount := 0 }

/-- `allocateGraphicsMemoryWithProperties`: returns an allocation or `none`
on exhaustion, and the updated manager state. -/
def MemoryManager.allocate (mm : MemoryManager) (size : Nat) (ty : AllocationType) :
    Option GraphicsAllocation × MemoryManager :=
  match mm.successesLeft with
  | some 0 => (none, { mm with allocateCalls := mm.allocateCalls + 1 })
  | some (k + 1) =>
      (some (mkAllocation mm.nextId size ty),
       { mm with nextId := mm.nextId + 1, successesLeft := some k,
                 allocateCalls := mm.allocateCalls + 1 })
  | none =>
      (some (mkAllocation mm.nextId size ty),
       { mm with nextId := mm.nextId + 1, allocateCalls := mm.allocateCalls + 1 })

/-- An allocation that was produced by (a past state of) the given memory
manager: its identity precedes the manager's cursor and its addresses follow
the manager's layout. -/
def GraphicsAllocation.fromManager (a : GraphicsAllocation) (mm : MemoryManager) : Prop :=
  a.id < mm.nextId ∧ a.gpuAddress = gpuAddrBase + a.id * allocGranule ∧
    a.cpuAddress = (a.id + 1) * allocGranule

instance (a : GraphicsAllocation) (mm : MemoryManager) :
    Decidable (a.fromManager mm) := by
  unfold GraphicsAllocation.fromManager; infer_instance

/-- A bump-pointer writer over one backing allocation. -/
structure LinearStream where
  alloc : GraphicsAllocation
  maxSize : Nat
  used : Nat
deriving DecidableEq, Repr

/-- `getAvailableSpace()`. -/
def LinearStream.availableSpace (s : LinearStream) : Nat := s.maxSize - s.used

/-- `getSpace(n)`: returns the CPU pointer of the granted region and advances
the cursor; overflow is a fatal precondition violation (`none`). -/
def LinearStream.getSpace (s : LinearStream) (n : Nat) : Option (Nat × LinearStream) :=
  if s.used + n ≤ s.maxSize then
    some (s.alloc.cpuAddress + s.used, { s with used := s.used + n })
  else
    none

/-- `align(a)`: advance the cursor so the current CPU pointer is `a`-aligned
(no-op for alignment `0`). -/
def LinearStream.alignCursor (s : LinearStream) (a : Nat) : LinearStream :=
  if a = 0 then s
  else
    let ptr := s.alloc.cpuAddress + s.used
    { s with used := s.used + (a - ptr % a) % a }

/-- An indirect heap: a linear stream bound to a heap type. -/
structure IndirectHeap extends LinearStream where
  heapType : HeapType
deriving DecidableEq, Repr

/-- `IndirectHeap::align` (keeps the heap-type tag). -/
def IndirectHeap.alignCursor (h : IndirectHeap) (a : Nat) : IndirectHeap :=
  { h.toLinearStream.alignCursor a with heapType := h.heapType }

/-- `IndirectHeap::getSpace` (keeps the heap-type tag). -/
def IndirectHeap.getSpace (h : IndirectHeap) (n : Nat) : Option (Nat × IndirectHeap) :=
  match h.toLinearStream.getSpace n with
  | none => none
  | some (ptr, s) => some (ptr, { s with heapType := h.heapType })

/-- GPU-side base address of a heap over the given backing allocation: the
indirect-object heap lives in the fixed internal-heap window (its base never
moves), the other heaps use the backing allocation's own GPU address. -/
def heapGpuBase (t : HeapType) (a : GraphicsAllocation) : Nat :=
  if t = .indirectObject then internalHeapBase else a.gpuAddress

/-- The `ReservedIndirectHeap` wrapper: a non-owning window
`[regionStart, regionEnd)` carved out of the shared container heap, with a
client-visible cursor.  `bound = false` models a wrapper whose CPU base is
still null. -/
structure ReservedHeap where
  bound : Bool := false
  regionStart : Nat := 0
  regionEnd : Nat := 0
  cursor : Nat := 0
deriving DecidableEq, Repr

/-- `CommandContainer::ErrorCode`. -/
inductive ErrorCode where
  | success
  | outOfDeviceMemory
deriving DecidableEq, Repr

/-- The command container state.  Lists of `GraphicsAllocation` model the
C++ vectors of pointers; the residency container stores allocation
identities.  `allocationsList` is the global `AllocationsList` passed at
initialization time, `heapReusePool` the `HeapHelper` storage-for-reuse. -/
structure CommandContainer where
  cmdBufferAllocations : List GraphicsAllocation := []
  stream : Option LinearStream := none
  secondaryCommandStreamForImmediateCmdList : Option LinearStream := none
  dshHeap : Option IndirectHeap := none
  iohHeap : Option IndirectHeap := none
  sshHeap : Option IndirectHeap := none
  dirtyHeaps : Nat := uint32Max
  residencyContainer : List Nat := []
  deallocationContainer : List GraphicsAllocation := []
  sshAllocations : List GraphicsAllocation := []
  heapReusePool : List GraphicsAllocation := []
  allocationsList : Option (List GraphicsAllocation) := none
  immediateReusableAllocationList : Option (List GraphicsAllocation) := none
  reservedSshSize : Nat := 0
  keepCurrentStateHeap : Bool := false
  heapSharing : Bool := false
  hasHeapHelper : Bool := false
  hasImmediateCsr : Bool := false
  csrCompletedTaskCount : Nat := 0
  recursiveLockCounter : Nat := 0
  sshReserve : ReservedHeap := {}
  dshReserve : ReservedHeap := {}
deriving DecidableEq, Repr

/-- `getIndirectHeap(type)`. -/
def CommandContainer.getIndirectHeap (c : CommandContainer) : HeapType → Option IndirectHeap
  | .dynamicState => c.dshHeap
  | .indirectObject => c.iohHeap
  | .surfaceState => c.sshHeap

/-- Store a heap under its type slot. -/
def CommandContainer.setIndirectHeap (c : CommandContainer) (t : HeapType)
    (h : IndirectHeap) : CommandContainer :=
  match t with
  | .dynamicState => { c with dshHeap := some h }
  | .indirectObject => { c with iohHeap := some h }
  | .surfaceState => { c with sshHeap := some h }

/-- `isHeapDirty(type)`: test the heap's bit in the dirty mask. -/
def CommandContainer.isHeapDirty (c : CommandContainer) (t : HeapType) : Bool :=
  c.dirtyHeaps.testBit (heapBitIndex t)

/-- `setHeapDirty(type)`: set the heap's bit in the dirty mask. -/
def CommandContainer.setHeapDirty (c : CommandContainer) (t : HeapType) : CommandContainer :=
  { c with dirtyHeaps := c.dirtyHeaps ||| (1 <<< heapBitIndex t) }

/-- `setDirtyStateForAllHeaps(bool)`. -/
def CommandContainer.setDirtyStateForAllHeaps (c : CommandContainer) (b : Bool) :
    CommandContainer :=
  { c with dirtyHeaps := if b then uint32Max else 0 }

/-- `immediateCmdListSharedHeap(type)`: in heap-sharing mode the
surface-state and dynamic-state heaps are the shared ones. -/
def CommandContainer.immediateCmdListSharedHeap (c : CommandContainer) (t : HeapType) : Bool :=
  c.heapSharing && (t = .surfaceState || t = .dynamicState)

/-- `addToResidencyContainer(alloc)`: no-op for null, otherwise append (even
if already present). -/
def CommandContainer.addToResidencyContainer (c : CommandContainer)
    (a : Option GraphicsAllocation) : CommandContainer :=
  match a with
  | none => c
  | some ga => { c with residencyContainer := c.residencyContainer ++ [ga.id] }

/-- Modelled from the spec: heap backing allocation creation during
initialization — allocate a default-sized backing (internal-heap type for the
indirect-object heap, linear-stream type otherwise) and wrap it in an
`IndirectHeap` whose cursor starts at the reserved-prefix size
(`reservedSshSize` for the surface-state heap, `0` otherwise). -/
def createHeap (mm : MemoryManager) (t : HeapType) (reservedSsh : Nat) :
    Option IndirectHeap × MemoryManager :=
  let ty : AllocationType := if t = .indirectObject then .internalHeap else .linearStream
  let r := mm.allocate defaultHeapSize ty
  match r.1 with
  | none => (none, r.2)
  | some a =>
      (some { alloc := a, maxSize := defaultHeapSize,
              used := if t = .surfaceState then reservedSsh else 0,
              heapType := t }, r.2)

/-- Initialization step: allocate the secondary host-memory command stream
for the immediate-command-list dual-buffering scheme, when requested. -/
def initSecondaryStep (c : CommandContainer) (mm : MemoryManager) (want : Bool) :
    Option CommandContainer × MemoryManager :=
  if want then
    let alignedSize := alignUpN totalCmdBufferSize pageSize64k
    let r := mm.allocate alignedSize .commandBuffer
    match r.1 with
    | none => (none, r.2)
    | some a =>
        (some { c with
                  secondaryCommandStreamForImmediateCmdList :=
                    some { alloc := a, maxSize := alignedSize - cmdBufferReservedSize, used := 0 }
                  residencyContainer := c.residencyContainer ++ [a.id] },
         r.2)
  else (some c, mm)

/-- Initialization step: create one indirect heap (when applicable for this
device/addressing mode), record it and add its backing to residency. -/
def initHeapStep (c : CommandContainer) (mm : MemoryManager) (t : HeapType) (want : Bool) :
    Option CommandContainer × MemoryManager :=
  if want then
    let r := createHeap mm t c.reservedSshSize
    match r.1 with
    | none => (none, r.2)
    | some h =>
        (some { c.setIndirectHeap t h with
                  residencyContainer := (c.setIndirectHeap t h).residencyContainer ++ [h.alloc.id] },
         r.2)
  else (some c, mm)

/-- Modelled from the spec: `CommandContainer::initialize(device,
allocationsList, requireHeaps, createSecondaryCmdBufferInHostMem)`.  Allocates
the primary command buffer (64 KiB-aligned `totalCmdBufferSize`, stream
capacity minus the reserved tail), then the secondary stream when requested,
then the applicable indirect heaps (dynamic-state only with image support;
surface and dynamic state skipped in heap-sharing mode, where they are carved
from the shared heap on first `reserveSpaceForDispatch`).  The first
allocation failure aborts with `OUT_OF_DEVICE_MEMORY`; all heaps start
dirty. -/
def initContainer (c0 : CommandContainer) (mm0 : MemoryManager)
    (allocsList : Option (List GraphicsAllocation))
    (requireHeaps createSecondaryCmdBufferInHostMem supportsImages : Bool) :
    ErrorCode × Option CommandContainer × MemoryManager :=
  let alignedSize := alignUpN totalCmdBufferSize pageSize64k
  let r0 := mm0.allocate alignedSize .commandBuffer
  match r0.1 with
  | none => (.outOfDeviceMemory, none, r0.2)
  | some cmdBuf =>
    let c := { c0 with
                 cmdBufferAllocations := [cmdBuf]
                 stream := some { alloc := cmdBuf, maxSize := alignedSize - cmdBufferReservedSize,
                                  used := 0 }
                 residencyContainer := [cmdBuf.id]
                 allocationsList := allocsList
                 hasHeapHelper := requireHeaps
                 dirtyHeaps := uint32Max }
    let r1 := initSecondaryStep c r0.2 createSecondaryCmdBufferInHostMem
    match r1.1 with
    | none => (.outOfDeviceMemory, none, r1.2)
    | some c1 =>
      let r2 := initHeapStep c1 r1.2 .dynamicState
        (requireHeaps && supportsImages && !c0.heapSharing)
      match r2.1 with
      | none => (.outOfDeviceMemory, none, r2.2)
      | some c2 =>
        let r3 := initHeapStep c2 r2.2 .indirectObject requireHeaps
        match r3.1 with
        | none => (.outOfDeviceMemory, none, r3.2)
        | some c3 =>
          let r4 := initHeapStep c3 r3.2 .surfaceState (requireHeaps && !c0.heapSharing)
          match r4.1 with
          | none => (.outOfDeviceMemory, none, r4.2)
          | some c4 => (.success, some c4, r4.2)

/-- Number of memory-manager allocations `initContainer` performs on a
container without heap sharing when no allocation fails. -/
def initAllocationAttempts (requireHeaps createSecondary supportsImages : Bool) : Nat :=
  1 + (if createSecondary then 1 else 0) +
    (if requireHeaps then (if supportsImages then 1 else 0) + 2 else 0)

/-- `AllocationsList::detachAllocation`: scan the free list for the first
allocation whose recorded task count is at most the command-stream-receiver's
completed task count and detach it. -/
def detachReusable (completed : Nat) : List GraphicsAllocation →
    Option (GraphicsAllocation × List GraphicsAllocation)
  | [] => none
  | a :: rest =>
      if a.taskCount ≤ completed then some (a, rest)
      else
        match detachReusable completed rest with
        | some (b, rest') => some (b, a :: rest')
        | none => none

/-- Fallback of `obtainNextCommandBufferAllocation`: try the global
allocations list (gated on the completed task count), then a fresh
allocation from the memory manager. -/
def obtainFromGlobalList (c : CommandContainer) (mm : MemoryManager) :
    Option GraphicsAllocation × CommandContainer × MemoryManager :=
  match c.allocationsList with
  | some l =>
      match detachReusable c.csrCompletedTaskCount l with
      | some (a, rest) => (some a, { c with allocationsList := some rest }, mm)
      | none =>
          let r := mm.allocate (alignUpN totalCmdBufferSize pageSize64k) .commandBuffer
          (r.1, c, r.2)
  | none =>
      let r := mm.allocate (alignUpN totalCmdBufferSize pageSize64k) .commandBuffer
      (r.1, c, r.2)

/-- `obtainNextCommandBufferAllocation`: try the immediate reuse list, then
the global allocations list, then a fresh allocation from the memory
manager. -/
def obtainNextCommandBufferAllocation (c : CommandContainer) (mm : MemoryManager) :
    Option GraphicsAllocation × CommandContainer × MemoryManager :=
  match c.immediateReusableAllocationList with
  | some l =>
      match detachReusable c.csrCompletedTaskCount l with
      | some (a, rest) => (some a, { c with immediateReusableAllocationList := some rest }, mm)
      | none => obtainFromGlobalList c mm
  | none => obtainFromGlobalList c mm

/-- `allocateNextCommandBuffer()`: obtain a command-buffer allocation, append
it to the buffer list, rebind the active stream to it with a fresh cursor and
add it to residency. -/
def CommandContainer.allocateNextCommandBuffer (c : CommandContainer) (mm : MemoryManager) :
    Option (CommandContainer × MemoryManager) :=
  let r := obtainNextCommandBufferAllocation c mm
  match r.1 with
  | none => none
  | some a =>
      some ({ r.2.1 with
                cmdBufferAllocations := r.2.1.cmdBufferAllocations ++ [a]
                stream := some { alloc := a,
                                 maxSize := alignUpN totalCmdBufferSize pageSize64k -
                                   cmdBufferReservedSize,
                                 used := 0 }
                residencyContainer := r.2.1.residencyContainer ++ [a.id] }, r.2.2)

/-- Iterate `allocateNextCommandBuffer` `n` times (a failed allocation leaves
the state unchanged). -/
def allocNextIter : Nat → CommandContainer → MemoryManager → CommandContainer × MemoryManager
  | 0, c, mm => (c, mm)
  | n + 1, c, mm =>
      match c.allocateNextCommandBuffer mm with
      | none => (c, mm)
      | some (c', mm') => allocNextIter n c' mm'

/-- Cursor value a heap type is reset to: the heap's reserved-prefix size. -/
def resetHeapCursor (c : CommandContainer) (t : HeapType) : Nat :=
  if t = .surfaceState then c.reservedSshSize else 0

/-- Modelled from the spec: `CommandContainer::reset()`.  Returns every
command buffer past index 0 to the provided allocations list (or frees it),
rebinds the stream to buffer 0 with cursor 0, marks all heaps dirty, clears
the residency and deallocation containers (heap-typed deallocations go back
to the reuse pool), and resets the heap cursors to their reserved-prefix
sizes — except that under the keep-current-state-heap policy the
surface-state and dynamic-state heaps keep their cursors (the indirect-object
heap is still reset). -/
def CommandContainer.reset (c : CommandContainer) : CommandContainer :=
  match c.cmdBufferAllocations with
  | [] => c
  | first :: rest =>
    let resetHeap := fun (t : HeapType) (h : IndirectHeap) =>
      { h with used := resetHeapCursor c t }
    let dsh' := if c.keepCurrentStateHeap then c.dshHeap
                else c.dshHeap.map (resetHeap .dynamicState)
    let ssh' := if c.keepCurrentStateHeap then c.sshHeap
                else c.sshHeap.map (resetHeap .surfaceState)
    let ioh' := c.iohHeap.map (resetHeap .indirectObject)
    let heapIds := ([dsh', ioh', ssh'].filterMap id).map (fun h => h.alloc.id)
    { c with
        cmdBufferAllocations := [first]
        stream := some { alloc := first, maxSize := defaultListCmdBufferSize, used := 0 }
        allocationsList := c.allocationsList.map (· ++ rest)
        dirtyHeaps := uint32Max
        residencyContainer := first.id :: heapIds
        deallocationContainer := []
        heapReusePool := c.heapReusePool ++
          c.deallocationContainer.filter
            (fun a => c.hasHeapHelper &&
              (a.allocType = AllocationType.internalHeap ||
               a.allocType = AllocationType.linearStream))
        dshHeap := dsh'
        sshHeap := ssh'
        iohHeap := ioh' }

/-- `swapStreams()`: exchange the active and secondary command streams when a
secondary stream exists, reporting whether a swap occurred. -/
def CommandContainer.swapStreams (c : CommandContainer) : Bool × CommandContainer :=
  match c.secondaryCommandStreamForImmediateCmdList with
  | none => (false, c)
  | some s =>
      (true, { c with stream := some s,
                      secondaryCommandStreamForImmediateCmdList := c.stream })

/-- `reuseExistingCmdBuffer()`: pop a ready command buffer from the immediate
reuse list (task count at most the completed task count) and re-append it to
the container; otherwise return null and change nothing. -/
def CommandContainer.reuseExistingCmdBuffer (c : CommandContainer) :
    Option GraphicsAllocation × CommandContainer :=
  match c.immediateReusableAllocationList with
  | none => (none, c)
  | some l =>
      match detachReusable c.csrCompletedTaskCount l with
      | none => (none, c)
      | some (a, rest) =>
          (some a, { c with
                       immediateReusableAllocationList := some rest
                       cmdBufferAllocations := c.cmdBufferAllocations ++ [a] })

/-- The `std::unique`-style pass of `removeDuplicatesFromResidencyContainer`:
drop an element equal to its successor (keeping one per run of equals). -/
def uniquePass : List Nat → List Nat
  | [] => []
  | [a] => [a]
  | a :: b :: rest =>
      if a = b then uniquePass (b :: rest) else a :: uniquePass (b :: rest)

/-- Modelled from the spec: `removeDuplicatesFromResidencyContainer()` — a
stable sort followed by a unique pass over the residency container. -/
def CommandContainer.removeDuplicatesFromResidencyContainer (c : CommandContainer) :
    CommandContainer :=
  { c with residencyContainer :=
      uniquePass (List.insertionSort (· ≤ ·) c.residencyContainer) }

/-- Requested size inflated by the alignment when the heap's current CPU
cursor is misaligned (the padding is consumed, never returned). -/
def paddedSizeRequired (h : IndirectHeap) (size alignment : Nat) : Nat :=
  if alignment ≠ 0 ∧ (h.alloc.cpuAddress + h.used) % alignment ≠ 0 then size + alignment
  else size

/-- Pop the first adequately sized backing allocation from the per-container
heap reuse pool. -/
def popReusableHeapAlloc (minSize : Nat) : List GraphicsAllocation →
    Option (GraphicsAllocation × List GraphicsAllocation)
  | [] => none
  | a :: rest =>
      if minSize ≤ a.size then some (a, rest)
      else
        match popReusableHeapAlloc minSize rest with
        | some (b, rest') => some (b, a :: rest')
        | none => none

/-- Modelled from the spec: heap growth — pop a same-type allocation from the
reuse pool or allocate fresh, rebind the heap to it with the cursor at the
reserved-prefix size, add the new backing to residency, push the old backing
onto the deallocation container (and `sshAllocations` for the surface-state
heap), and set the heap's dirty bit when its GPU base address changed. -/
def createAndAssignNewHeap (c : CommandContainer) (mm : MemoryManager)
    (t : HeapType) (newSize : Nat) :
    Option (CommandContainer × MemoryManager) :=
  match c.getIndirectHeap t with
  | none => none
  | some h =>
    let fromPool := popReusableHeapAlloc newSize c.heapReusePool
    let ty : AllocationType := if t = .indirectObject then .internalHeap
                               else .linearStream
    let newAllocOpt : Option GraphicsAllocation :=
      match fromPool with
      | some p => some p.1
      | none => (mm.allocate (alignUpN newSize pageSize) ty).1
    let pool' : List GraphicsAllocation :=
      match fromPool with
      | some p => p.2
      | none => c.heapReusePool
    let mm' : MemoryManager :=
      match fromPool with
      | some _ => mm
      | none => (mm.allocate (alignUpN newSize pageSize) ty).2
    match newAllocOpt with
    | none => none
    | some newAlloc =>
      let oldAlloc := h.alloc
      let h' : IndirectHeap :=
        { alloc := newAlloc, maxSize := newAlloc.size,
          used := if t = .surfaceState then c.reservedSshSize else 0, heapType := t }
      let c1 := c.setIndirectHeap t h'
      let c2 := { c1 with
                    heapReusePool := pool'
                    residencyContainer := c1.residencyContainer ++ [newAlloc.id]
                    deallocationContainer := c1.deallocationContainer ++ [oldAlloc]
                    sshAllocations := if t = .surfaceState then c1.sshAllocations ++ [oldAlloc]
                                      else c1.sshAllocations }
      let c3 := if heapGpuBase t oldAlloc ≠ heapGpuBase t newAlloc then c2.setHeapDirty t
                else c2
      some (c3, mm')

/-- Size a replacement heap is grown to: double the current heap, but at
least the outstanding request, rounded up to a page. -/
def grownHeapSize (h : IndirectHeap) (sizeRequested : Nat) : Nat :=
  alignUpN (max ((h.used + h.availableSpace) * 2) (h.availableSpace + sizeRequested)) pageSize

/-- Modelled from the spec: `getHeapWithRequiredSizeAndAlignment(type, size,
alignment)`.  A missing heap is a fatal precondition violation; with enough
space the heap is returned unchanged except for alignment padding; otherwise
the backing is replaced (fatal in heap-sharing mode for the shared types). -/
def CommandContainer.getHeapWithRequiredSizeAndAlignment (c : CommandContainer)
    (mm : MemoryManager) (t : HeapType) (sizeRequired alignment : Nat) :
    Option (IndirectHeap × CommandContainer × MemoryManager) :=
  match c.getIndirectHeap t with
  | none => none
  | some h =>
    let sizeRequested := paddedSizeRequired h sizeRequired alignment
    if h.availableSpace < sizeRequested then
      if c.immediateCmdListSharedHeap t then none
      else
        match createAndAssignNewHeap c mm t (grownHeapSize h sizeRequested) with
        | none => none
        | some (c', mm') =>
          match c'.getIndirectHeap t with
          | none => none
          | some h1 =>
            let h2 := h1.alignCursor alignment
            some (h2, c'.setIndirectHeap t h2, mm')
    else
      let h2 := h.alignCursor alignment
      some (h2, c.setIndirectHeap t h2, mm)

/-- Modelled from the spec: `getHeapSpaceAllowGrow(type, size)` — same growth
semantics, no alignment guarantee, and the space itself is consumed. -/
def CommandContainer.getHeapSpaceAllowGrow (c : CommandContainer) (mm : MemoryManager)
    (t : HeapType) (size : Nat) :
    Option (Nat × CommandContainer × MemoryManager) :=
  match c.getIndirectHeap t with
  | none => none
  | some h =>
    if h.availableSpace < size then
      if c.immediateCmdListSharedHeap t then none
      else
        match createAndAssignNewHeap c mm t (grownHeapSize h size) with
        | none => none
        | some (c', mm') =>
          match c'.getIndirectHeap t with
          | none => none
          | some h1 =>
            match h1.getSpace size with
            | none => none
            | some (ptr, h2) => some (ptr, c'.setIndirectHeap t h2, mm')
    else
      match h.getSpace size with
      | none => none
      | some (ptr, h2) => some (ptr, c.setIndirectHeap t h2, mm)

/-- First step of a shared-heap reservation: create the container heap for
the shared type if it does not exist yet. -/
def ensureSharedHeapExists (c : CommandContainer) (mm : MemoryManager) (t : HeapType) :
    Option (CommandContainer × MemoryManager) :=
  match c.getIndirectHeap t with
  | some _ => some (c, mm)
  | none =>
      let r := createHeap mm t c.reservedSshSize
      match r.1 with
      | none => none
      | some h =>
          some ({ c.setIndirectHeap t h with
                    residencyContainer := (c.setIndirectHeap t h).residencyContainer ++
                      [h.alloc.id] }, r.2)

/-- Select the reservation wrapper of a shared heap type. -/
def CommandContainer.reserveOf (c : CommandContainer) (t : HeapType) : ReservedHeap :=
  if t = .surfaceState then c.sshReserve else c.dshReserve

/-- Store the reservation wrapper of a shared heap type. -/
def CommandContainer.setReserveOf (c : CommandContainer) (t : HeapType) (w : ReservedHeap) :
    CommandContainer :=
  if t = .surfaceState then { c with sshReserve := w } else { c with dshReserve := w }

/-- Modelled from the spec: per-heap step of `reserveSpaceForDispatch` — make
sure the shared container heap exists, then either keep the previously
reserved sub-region when it still has room for the aligned request (the
reservation output is nulled, reported as `true`) or consume fresh aligned
space from the container heap and rebind the wrapper to that sub-region. -/
def reserveHeap (c : CommandContainer) (mm : MemoryManager) (t : HeapType)
    (size alignment : Nat) :
    Option (Bool × CommandContainer × MemoryManager) :=
  match ensureSharedHeapExists c mm t with
  | none => none
  | some (c1, mm1) =>
    match c1.getIndirectHeap t with
    | none => none
    | some h =>
      let needed := if alignment = 0 then size else alignUpN size alignment
      let w := c1.reserveOf t
      if w.bound ∧ needed ≤ w.regionEnd - w.cursor then
        some (true, c1, mm1)
      else
        let h1 := h.alignCursor alignment
        let start := h1.used
        let h2 : IndirectHeap := { h1 with used := h1.used + needed }
        let w' : ReservedHeap :=
          { bound := true, regionStart := start, regionEnd := start + needed, cursor := start }
        some (false, (c1.setIndirectHeap t h2).setReserveOf t w', mm1)

/-- Modelled from the spec: `reserveSpaceForDispatch(sshArgs, dshArgs,
dshRequired)` — take the command-stream-receiver's recursive residency lock
(observable through the lock counter), then reserve surface-state space and,
when required, dynamic-state space. -/
def CommandContainer.reserveSpaceForDispatch (c : CommandContainer) (mm : MemoryManager)
    (sshSize sshAlignment dshSize dshAlignment : Nat) (dshRequired : Bool) :
    Option (CommandContainer × MemoryManager) :=
  let c0 := if c.hasImmediateCsr then
              { c with recursiveLockCounter := c.recursiveLockCounter + 1 }
            else c
  match reserveHeap c0 mm .surfaceState sshSize sshAlignment with
  | none => none
  | some (_, c1, mm1) =>
    if dshRequired then
      match reserveHeap c1 mm1 .dynamicState dshSize dshAlignment with
      | none => none
      | some (_, c2, mm2) => some (c2, mm2)
    else some (c1, mm1)

/-- Observable outcome of destroying a container: which allocation identities
were freed through the memory manager, the heap-helper reuse pool afterwards,
and the global allocations list afterwards. -/
structure DestroyOutcome where
  freedIds : List Nat
  heapPool : List GraphicsAllocation
  allocationsListOut : Option (List GraphicsAllocation)
deriving DecidableEq, Repr

/-- Modelled from the spec: the `CommandContainer` destructor — command
buffers are flushed to the global allocations list (or freed when none was
provided), the indirect heaps' backing allocations are stored into the heap
helper's reuse pool, and deallocation-container entries of heap-backing type
(internal-heap or linear-stream) are likewise stored for reuse while entries
of any other type are left untouched. -/
def CommandContainer.destroyContainer (c : CommandContainer) : DestroyOutcome :=
  let freedBufs : List Nat :=
    match c.allocationsList with
    | some _ => []
    | none => c.cmdBufferAllocations.map (fun a => a.id)
  let listOut : Option (List GraphicsAllocation) :=
    match c.allocationsList with
    | some l => some (l ++ c.cmdBufferAllocations)
    | none => none
  let heapAllocs := ([c.dshHeap, c.iohHeap, c.sshHeap].filterMap id).map
    (fun h : IndirectHeap => h.alloc)
  let pool1 := if c.hasHeapHelper then c.heapReusePool ++ heapAllocs else c.heapReusePool
  let deallocStored := c.deallocationContainer.filter
    (fun a => c.hasHeapHelper &&
      (a.allocType == AllocationType.internalHeap || a.allocType == AllocationType.linearStream))
  { freedIds := freedBufs
    heapPool := pool1 ++ deallocStored
    allocationsListOut := listOut }

/-- Reachability invariant used by the growth theorems: the backing
allocation of the heap of type `t` (when it exists) was produced by the
memory manager, and no pool allocation shares its identity. -/
def CommandContainer.freshHeapBacking (c : CommandContainer) (mm : MemoryManager)
    (t : HeapType) : Prop :=
  ∀ h, c.getIndirectHeap t = some h →
    h.alloc.fromManager mm ∧
      ∀ a ∈ c.heapReusePool, a.fromManager mm ∧ a.id ≠ h.alloc.id

/-! ### Helper lemmas about the container primitives -/

theorem getIndirectHeap_setIndirectHeap_same (c : CommandContainer) (t : HeapType)
    (h : IndirectHeap) : (c.setIndirectHeap t h).getIndirectHeap t = some h := by
  cases t <;> rfl

theorem dirtyHeaps_setIndirectHeap (c : CommandContainer) (t : HeapType) (h : IndirectHeap) :
    (c.setIndirectHeap t h).dirtyHeaps = c.dirtyHeaps := by
  cases t <;> rfl

theorem isHeapDirty_setIndirectHeap (c : CommandContainer) (t t' : HeapType)
    (h : IndirectHeap) : (c.setIndirectHeap t h).isHeapDirty t' = c.isHeapDirty t' := by
  cases t <;> rfl

theorem isHeapDirty_setHeapDirty_self (c : CommandContainer) (t : HeapType) :
    (c.setHeapDirty t).isHeapDirty t = true := by
  unfold CommandContainer.setHeapDirty CommandContainer.isHeapDirty
  simp [Nat.testBit_or, Nat.shiftLeft_eq, Nat.testBit_two_pow_self]

theorem alignCursor_alloc (h : IndirectHeap) (a : Nat) :
    (h.alignCursor a).alloc = h.alloc := by
  unfold IndirectHeap.alignCursor LinearStream.alignCursor
  split <;> rfl

/-- `detachReusable` only succeeds on a listed allocation that is provably
complete. -/
theorem detachReusable_some (completed : Nat) :
    ∀ (l : List GraphicsAllocation) (a : GraphicsAllocation) (rest : List GraphicsAllocation),
      detachReusable completed l = some (a, rest) →
      a ∈ l ∧ a.taskCount ≤ completed
  | [], a, rest, h => by simp [detachReusable] at h
  | b :: l, a, rest, h => by
      unfold detachReusable at h
      by_cases hb : b.taskCount ≤ completed
      · rw [if_pos hb] at h
        cases h
        exact ⟨List.mem_cons_self _ _, hb⟩
      · rw [if_neg hb] at h
        cases hd : detachReusable completed l with
        | none => rw [hd] at h; cases h
        | some p =>
            rw [hd] at h
            cases h
            have := detachReusable_some completed l p.1 p.2 (by rw [hd])
            exact ⟨List.mem_cons_of_mem _ this.1, this.2⟩

/-- `detachReusable` fails exactly when no listed allocation is complete. -/
theorem detachReusable_none (completed : Nat) :
    ∀ (l : List GraphicsAllocation),
      detachReusable completed l = none ↔ ∀ a ∈ l, ¬ a.taskCount ≤ completed
  | [] => by simp [detachReusable]
  | b :: l => by
      unfold detachReusable
      by_cases hb : b.taskCount ≤ completed
      · rw [if_pos hb]
        simp [hb]
      · rw [if_neg hb]
        cases hd : detachReusable completed l with
        | none =>
            simp only [List.mem_cons]
            constructor
            · intro _ a ha
              rcases ha with rfl | ha
              · exact hb
              · exact ((detachReusable_none completed l).mp hd) a ha
            · intro _; trivial
        | some p =>
            simp only [List.mem_cons]
            constructor
            · intro h; cases h
            · intro hall
              have : detachReusable completed l = none := by
                rw [detachReusable_none completed l]
                intro a ha; exact hall a (Or.inr ha)
              rw [hd] at this; cases this

/-! ### Claim C5 — reuseExistingCmdBuffer is gated by the completed task count -/

/-- C5: `reuseExistingCmdBuffer()` returns (and re-appends to the container) a
command buffer from the reusable allocation list exactly when some listed
allocation's recorded task count is at most the CSR's completed task count;
otherwise it returns null and leaves the command-buffer list unchanged. -/
theorem C5_reuse_taskcount_gate (c : CommandContainer) (l : List GraphicsAllocation)
    (hl : c.immediateReusableAllocationList = some l) :
    ((c.reuseExistingCmdBuffer.1 = none ∧ c.reuseExistingCmdBuffer.2 = c) ↔
        ∀ a ∈ l, ¬ a.taskCount ≤ c.csrCompletedTaskCount) ∧
    (∀ a, c.reuseExistingCmdBuffer.1 = some a →
        a ∈ l ∧ a.taskCount ≤ c.csrCompletedTaskCount ∧
        c.reuseExistingCmdBuffer.2.cmdBufferAllocations = c.cmdBufferAllocations ++ [a]) := by
  cases hd : detachReusable c.csrCompletedTaskCount l with
  | none =>
      have hr : c.reuseExistingCmdBuffer = (none, c) := by
        unfold CommandContainer.reuseExistingCmdBuffer
        simp only [hl, hd]
      rw [hr]
      constructor
      · constructor
        · intro _; exact (detachReusable_none _ _).mp hd
        · intro _; exact ⟨rfl, rfl⟩
      · intro a ha; cases ha
  | some p =>
      obtain ⟨a0, rest0⟩ := p
      obtain ⟨hmem, hle⟩ := detachReusable_some _ l a0 rest0 hd
      have hr : c.reuseExistingCmdBuffer =
          (some a0, { c with immediateReusableAllocationList := some rest0,
                             cmdBufferAllocations := c.cmdBufferAllocations ++ [a0] }) := by
        unfold CommandContainer.reuseExistingCmdBuffer
        simp only [hl, hd]
      rw [hr]
      constructor
      · constructor
        · rintro ⟨h1, -⟩; cases h1
        · intro hall; exact absurd hle (hall _ hmem)
      · intro a ha
        cases ha
        exact ⟨hmem, hle, rfl⟩

/-- Concrete free-listed command buffer used to exercise C5. -/
def c5Alloc : GraphicsAllocation :=
  { mkAllocation 50 1000 .commandBuffer with taskCount := 10 }

/-- Concrete container whose CSR has completed task 10, so `c5Alloc` is
reusable. -/
def c5Container : CommandContainer :=
  { cmdBufferAllocations := [mkAllocation 0 100 .commandBuffer]
    csrCompletedTaskCount := 10
    immediateReusableAllocationList := some [c5Alloc] }

/-- Witness for C5 at a concrete container: the ready buffer is popped and
re-appended. -/
theorem C5_witness :
    c5Container.reuseExistingCmdBuffer.2.cmdBufferAllocations =
      c5Container.cmdBufferAllocations ++ [c5Alloc] := by
  have h := (C5_reuse_taskcount_gate c5Container [c5Alloc] rfl).2 c5Alloc (by decide)
  exact h.2.2

/-! ### Claim C9 — reset and the keep-current-state-heap policy -/

/-- C9: on an initialized container, `reset()` always returns the
indirect-object heap cursor to 0; under the keep-current-state-heap policy
the surface-state and dynamic-state cursors are unchanged, and without it
they return to their reserved-prefix sizes. -/
theorem C9_reset_cursors (c : CommandContainer) (hne : c.cmdBufferAllocations ≠ []) :
    (c.reset.iohHeap.map (fun h => h.used) = c.iohHeap.map (fun _ => 0)) ∧
    (c.keepCurrentStateHeap = true →
      c.reset.sshHeap.map (fun h => h.used) = c.sshHeap.map (fun h => h.used) ∧
      c.reset.dshHeap.map (fun h => h.used) = c.dshHeap.map (fun h => h.used)) ∧
    (c.keepCurrentStateHeap = false →
      c.reset.sshHeap.map (fun h => h.used) = c.sshHeap.map (fun _ => c.reservedSshSize) ∧
      c.reset.dshHeap.map (fun h => h.used) = c.dshHeap.map (fun _ => 0)) := by
  match hc : c.cmdBufferAllocations with
  | [] => exact absurd hc hne
  | first :: rest =>
    refine ⟨?_, ?_, ?_⟩
    · simp only [CommandContainer.reset, hc]
      cases c.iohHeap <;> simp [resetHeapCursor]
    · intro hk
      simp only [CommandContainer.reset, hc, hk]
      constructor <;> simp
    · intro hk
      simp only [CommandContainer.reset, hc, hk]
      constructor
      · cases c.sshHeap <;> simp [resetHeapCursor]
      · cases c.dshHeap <;> simp [resetHeapCursor]

/-- Concrete container (heaps partially consumed, keep-policy set) for C9. -/
def c9Container : CommandContainer :=
  { cmdBufferAllocations := [mkAllocation 0 100 .commandBuffer]
    keepCurrentStateHeap := true
    iohHeap := some { alloc := mkAllocation 1 defaultHeapSize .internalHeap,
                      maxSize := defaultHeapSize, used := 64,
                      heapType := .indirectObject }
    sshHeap := some { alloc := mkAllocation 2 defaultHeapSize .linearStream,
                      maxSize := defaultHeapSize, used := 64,
                      heapType := .surfaceState } }

/-- Witness for C9 at a concrete container with the keep policy set. -/
theorem C9_witness :
    c9Container.reset.iohHeap.map (fun h => h.used) =
        c9Container.iohHeap.map (fun _ => 0) ∧
    c9Container.reset.sshHeap.map (fun h => h.used) =
        c9Container.sshHeap.map (fun h => h.used) := by
  have h := C9_reset_cursors c9Container (by decide)
  exact ⟨h.1, (h.2.1 rfl).1⟩

/-! ### Claim C3 — reset returns to the single original command buffer -/

theorem obtain_preserves_cmdBufs (c : CommandContainer) (mm : MemoryManager) :
    (obtainNextCommandBufferAllocation c mm).2.1.cmdBufferAllocations =
      c.cmdBufferAllocations := by
  unfold obtainNextCommandBufferAllocation obtainFromGlobalList
  repeat' split
  all_goals rfl

theorem allocateNext_cmdBufs (c c' : CommandContainer) (mm mm' : MemoryManager)
    (h : c.allocateNextCommandBuffer mm = some (c', mm')) :
    ∃ a, c'.cmdBufferAllocations = c.cmdBufferAllocations ++ [a] := by
  unfold CommandContainer.allocateNextCommandBuffer at h
  cases hob : obtainNextCommandBufferAllocation c mm with
  | mk ao rest =>
      obtain ⟨c2, mm2⟩ := rest
      rw [hob] at h
      cases ao with
      | none => cases h
      | some a =>
          refine ⟨a, ?_⟩
          cases h
          have := obtain_preserves_cmdBufs c mm
          rw [hob] at this
          simpa using congrArg (fun l => l ++ [a]) this

theorem allocNextIter_head (n : Nat) (c : CommandContainer) (mm : MemoryManager)
    (b : GraphicsAllocation) (hb : c.cmdBufferAllocations.head? = some b) :
    (allocNextIter n c mm).1.cmdBufferAllocations.head? = some b := by
  induction n generalizing c mm with
  | zero => exact hb
  | succ n ih =>
      unfold allocNextIter
      cases hstep : c.allocateNextCommandBuffer mm with
      | none => exact hb
      | some p =>
          obtain ⟨c', mm'⟩ := p
          obtain ⟨a, ha⟩ := allocateNext_cmdBufs c c' mm mm' hstep
          apply ih
          rw [ha]
          cases hl : c.cmdBufferAllocations with
          | nil => rw [hl] at hb; cases hb
          | cons x xs =>
              rw [hl] at hb
              simpa using hb

/-- C3: for every number n of `allocateNextCommandBuffer()` calls, a single
`reset()` leaves exactly one command buffer — the original index-0 allocation
— and rebinds the command stream to it with a fresh cursor. -/
theorem C3_reset_single_buffer (n : Nat) (c : CommandContainer) (mm : MemoryManager)
    (b : GraphicsAllocation) (hb : c.cmdBufferAllocations.head? = some b) :
    (allocNextIter n c mm).1.reset.cmdBufferAllocations = [b] ∧
    (allocNextIter n c mm).1.reset.stream =
      some { alloc := b, maxSize := defaultListCmdBufferSize, used := 0 } := by
  have hhead := allocNextIter_head n c mm b hb
  cases hl : (allocNextIter n c mm).1.cmdBufferAllocations with
  | nil => rw [hl] at hhead; cases hhead
  | cons x xs =>
      rw [hl] at hhead
      have hx : x = b := by simpa using hhead
      subst hx
      constructor
      · simp only [CommandContainer.reset, hl]
      · simp only [CommandContainer.reset, hl]

/-- Concrete initialized-like container for the C3 witness. -/
def c3Container : CommandContainer :=
  { cmdBufferAllocations := [mkAllocation 0 defaultListCmdBufferSize .commandBuffer]
    stream := some { alloc := mkAllocation 0 defaultListCmdBufferSize .commandBuffer,
                     maxSize := defaultListCmdBufferSize, used := 0 } }

/-- Witness for C3: three buffer allocations followed by one reset leave only
the original buffer. -/
theorem C3_witness :
    (allocNextIter 3 c3Container {}).1.reset.cmdBufferAllocations =
      [mkAllocation 0 defaultListCmdBufferSize .commandBuffer] := by
  exact (C3_reset_single_buffer 3 c3Container {} _ rfl).1

/-! ### Claims C8 and C10 — stream capacity and stream swapping -/

theorem setIndirectHeap_stream (c : CommandContainer) (t : HeapType) (h : IndirectHeap) :
    (c.setIndirectHeap t h).stream = c.stream := by
  cases t <;> rfl

theorem setIndirectHeap_secondary (c : CommandContainer) (t : HeapType) (h : IndirectHeap) :
    (c.setIndirectHeap t h).secondaryCommandStreamForImmediateCmdList =
      c.secondaryCommandStreamForImmediateCmdList := by
  cases t <;> rfl

theorem initSecondaryStep_stream (c c' : CommandContainer) (mm : MemoryManager) (w : Bool)
    (h : (initSecondaryStep c mm w).1 = some c') : c'.stream = c.stream := by
  unfold initSecondaryStep at h
  dsimp only at h
  split at h
  · split at h
    · cases h
    · cases h; rfl
  · cases h; rfl

theorem initHeapStep_stream (c c' : CommandContainer) (mm : MemoryManager)
    (t : HeapType) (w : Bool) (h : (initHeapStep c mm t w).1 = some c') :
    c'.stream = c.stream := by
  unfold initHeapStep at h
  dsimp only at h
  split at h
  · split at h
    · cases h
    · cases h
      exact setIndirectHeap_stream c t _
  · cases h; rfl

theorem initHeapStep_secondary (c c' : CommandContainer) (mm : MemoryManager)
    (t : HeapType) (w : Bool) (h : (initHeapStep c mm t w).1 = some c') :
    c'.secondaryCommandStreamForImmediateCmdList =
      c.secondaryCommandStreamForImmediateCmdList := by
  unfold initHeapStep at h
  dsimp only at h
  split at h
  · split at h
    · cases h
    · cases h
      exact setIndirectHeap_secondary c t _
  · cases h; rfl

theorem initSecondaryStep_secondary_true (c c' : CommandContainer) (mm : MemoryManager)
    (h : (initSecondaryStep c mm true).1 = some c') :
    c'.secondaryCommandStreamForImmediateCmdList.isSome = true := by
  unfold initSecondaryStep at h
  dsimp only at h
  simp only [if_pos] at h
  split at h
  · cases h
  · cases h; rfl

theorem initSecondaryStep_secondary_false (c c' : CommandContainer) (mm : MemoryManager)
    (h : (initSecondaryStep c mm false).1 = some c') :
    c'.secondaryCommandStreamForImmediateCmdList =
      c.secondaryCommandStreamForImmediateCmdList := by
  unfold initSecondaryStep at h
  dsimp only at h
  simp only [Bool.false_eq_true, if_false] at h
  cases h; rfl

/-- Successful initialization decomposed into the per-step facts needed by
the stream-related claims. -/
theorem initContainer_success_parts (c0 : CommandContainer) (mm0 : MemoryManager)
    (al : Option (List GraphicsAllocation)) (rh cs si : Bool)
    (c : CommandContainer) (mm1 : MemoryManager)
    (h : initContainer c0 mm0 al rh cs si = (.success, some c, mm1)) :
    ∃ (cmdBuf : GraphicsAllocation) (cB cC cD : CommandContainer)
      (mmA mmB mmC mmD : MemoryManager),
      (initSecondaryStep
        { c0 with
            cmdBufferAllocations := [cmdBuf]
            stream := some { alloc := cmdBuf,
                             maxSize := alignUpN totalCmdBufferSize pageSize64k -
                               cmdBufferReservedSize,
                             used := 0 }
            residencyContainer := [cmdBuf.id]
            allocationsList := al
            hasHeapHelper := rh
            dirtyHeaps := uint32Max } mmA cs).1 = some cB ∧
      (initHeapStep cB mmB .dynamicState (rh && si && !c0.heapSharing)).1 = some cC ∧
      (initHeapStep cC mmC .indirectObject rh).1 = some cD ∧
      (initHeapStep cD mmD .surfaceState (rh && !c0.heapSharing)).1 = some c := by
  unfold initContainer at h
  dsimp only at h
  split at h
  · cases h
  next cmdBuf heq0 =>
    split at h
    · cases h
    next cB heq1 =>
      split at h
      · cases h
      next cC heq2 =>
        split at h
        · cases h
        next cD heq3 =>
          split at h
          · cases h
          next cE heq4 =>
            cases h
            exact ⟨cmdBuf, cB, cC, cD, _, _, _, _, heq1, heq2, heq3, heq4⟩

/-- Capacity invariant preserved by `allocateNextCommandBuffer` iterations. -/
theorem allocNextIter_stream_capacity (n : Nat) (c : CommandContainer) (mm : MemoryManager)
    (hc : c.stream.map (fun s => s.maxSize) =
      some (alignUpN totalCmdBufferSize pageSize64k - cmdBufferReservedSize)) :
    (allocNextIter n c mm).1.stream.map (fun s => s.maxSize) =
      some (alignUpN totalCmdBufferSize pageSize64k - cmdBufferReservedSize) := by
  induction n generalizing c mm with
  | zero => exact hc
  | succ n ih =>
      unfold allocNextIter
      cases hstep : c.allocateNextCommandBuffer mm with
      | none => exact hc
      | some p =>
          obtain ⟨c', mm'⟩ := p
          apply ih
          unfold CommandContainer.allocateNextCommandBuffer at hstep
          dsimp only at hstep
          split at hstep
          · cases hstep
          · cases hstep; rfl

/-- C8: after a successful `initialize` — and again after every
`allocateNextCommandBuffer()` — the command stream's maximum available space
is exactly `totalCmdBufferSize` aligned up to 64 KiB minus the reserved
tail `cmdBufferReservedSize`. -/
theorem C8_stream_capacity (c0 : CommandContainer) (mm0 : MemoryManager)
    (al : Option (List GraphicsAllocation)) (rh cs si : Bool)
    (c : CommandContainer) (mm1 : MemoryManager)
    (h : initContainer c0 mm0 al rh cs si = (.success, some c, mm1)) :
    c.stream.map (fun s => s.maxSize) =
      some (alignUpN totalCmdBufferSize pageSize64k - cmdBufferReservedSize) ∧
    ∀ (n : Nat) (mm2 : MemoryManager),
      (allocNextIter n c mm2).1.stream.map (fun s => s.maxSize) =
        some (alignUpN totalCmdBufferSize pageSize64k - cmdBufferReservedSize) := by
  obtain ⟨cmdBuf, cB, cC, cD, mmA, mmB, mmC, mmD, hB, hC, hD, hE⟩ :=
    initContainer_success_parts c0 mm0 al rh cs si c mm1 h
  have hstream : c.stream =
      some { alloc := cmdBuf,
             maxSize := alignUpN totalCmdBufferSize pageSize64k - cmdBufferReservedSize,
             used := 0 } := by
    rw [initHeapStep_stream cD c mmD _ _ hE,
        initHeapStep_stream cC cD mmC _ _ hD,
        initHeapStep_stream cB cC mmB _ _ hC,
        initSecondaryStep_stream _ cB mmA cs hB]
  have hcap : c.stream.map (fun s => s.maxSize) =
      some (alignUpN totalCmdBufferSize pageSize64k - cmdBufferReservedSize) := by
    rw [hstream]; rfl
  exact ⟨hcap, fun n mm2 => allocNextIter_stream_capacity n c mm2 hcap⟩

/-- Witness container for C8/C10: start from a default-constructed container
and an unbounded memory manager. -/
def initWitnessResult : ErrorCode × Option CommandContainer × MemoryManager :=
  initContainer {} {} none true true true

/-- The container produced by `initWitnessResult`. -/
def initWitnessC : CommandContainer := initWitnessResult.2.1.getD {}

/-- The manager state produced by `initWitnessResult`. -/
def initWitnessMM : MemoryManager := initWitnessResult.2.2

/-- Witness for C8 at a concrete initialization. -/
theorem C8_witness :
    initWitnessC.stream.map (fun s => s.maxSize) =
      some (alignUpN totalCmdBufferSize pageSize64k - cmdBufferReservedSize) ∧
    (allocNextIter 2 initWitnessC {}).1.stream.map (fun s => s.maxSize) =
      some (alignUpN totalCmdBufferSize pageSize64k - cmdBufferReservedSize) := by
  have h := C8_stream_capacity {} {} none true true true initWitnessC initWitnessMM (by decide)
  exact ⟨h.1, h.2 2 {}⟩

/-- C10: `swapStreams()` succeeds and exchanges the active and secondary
streams exactly when the container was initialized with a secondary stream
requested; without one it returns false and leaves the active stream
unchanged. -/
theorem C10_swap_streams (c0 : CommandContainer) (mm0 : MemoryManager)
    (al : Option (List GraphicsAllocation)) (rh cs si : Bool)
    (c : CommandContainer) (mm1 : MemoryManager)
    (hsec0 : c0.secondaryCommandStreamForImmediateCmdList = none)
    (h : initContainer c0 mm0 al rh cs si = (.success, some c, mm1)) :
    (cs = true → ∃ s, c.secondaryCommandStreamForImmediateCmdList = some s ∧
        c.swapStreams = (true,
          { c with
              stream := some s
              secondaryCommandStreamForImmediateCmdList := c.stream })) ∧
    (cs = false → c.secondaryCommandStreamForImmediateCmdList = none ∧
        c.swapStreams = (false, c)) ∧
    (c.swapStreams.1 = true ↔ c.secondaryCommandStreamForImmediateCmdList ≠ none) := by
  obtain ⟨cmdBuf, cB, cC, cD, mmA, mmB, mmC, mmD, hB, hC, hD, hE⟩ :=
    initContainer_success_parts c0 mm0 al rh cs si c mm1 h
  have hsec : c.secondaryCommandStreamForImmediateCmdList =
      cB.secondaryCommandStreamForImmediateCmdList := by
    rw [initHeapStep_secondary cD c mmD _ _ hE,
        initHeapStep_secondary cC cD mmC _ _ hD,
        initHeapStep_secondary cB cC mmB _ _ hC]
  refine ⟨?_, ?_, ?_⟩
  · intro hcs
    subst hcs
    have hs : c.secondaryCommandStreamForImmediateCmdList.isSome = true := by
      rw [hsec]; exact initSecondaryStep_secondary_true _ cB mmA hB
    cases hsome : c.secondaryCommandStreamForImmediateCmdList with
    | none => rw [hsome] at hs; cases hs
    | some s =>
        refine ⟨s, rfl, ?_⟩
        unfold CommandContainer.swapStreams
        rw [hsome]
  · intro hcs
    subst hcs
    have hn : c.secondaryCommandStreamForImmediateCmdList = none := by
      rw [hsec, initSecondaryStep_secondary_false _ cB mmA hB]
      exact hsec0
    refine ⟨hn, ?_⟩
    unfold CommandContainer.swapStreams
    rw [hn]
  · unfold CommandContainer.swapStreams
    cases hsome : c.secondaryCommandStreamForImmediateCmdList <;> simp

/-- Witness for C10 at a concrete initialization with a secondary stream. -/
theorem C10_witness :
    initWitnessC.swapStreams.1 = true ∧
    initWitnessC.secondaryCommandStreamForImmediateCmdList ≠ none := by
  have h := C10_swap_streams {} {} none true true true initWitnessC initWitnessMM rfl (by decide)
  obtain ⟨s, hs, hswap⟩ := h.1 rfl
  refine ⟨?_, ?_⟩
  · rw [hswap]
  · rw [hs]; exact fun hx => by cases hx

/-! ### Claim C7 — residency accumulation and duplicate removal -/

theorem mem_uniquePass : ∀ (l : List Nat) (x : Nat), x ∈ uniquePass l ↔ x ∈ l
  | [], x => by simp [uniquePass]
  | [a], x => by simp [uniquePass]
  | a :: b :: rest, x => by
      unfold uniquePass
      by_cases hab : a = b
      · rw [if_pos hab, mem_uniquePass (b :: rest) x]
        subst hab
        simp only [List.mem_cons]
        tauto
      · rw [if_neg hab]
        simp only [List.mem_cons, mem_uniquePass (b :: rest) x]

theorem uniquePass_nodup : ∀ (l : List Nat), l.Sorted (· ≤ ·) → (uniquePass l).Nodup
  | [], _ => by simp [uniquePass]
  | [a], _ => by simp [uniquePass]
  | a :: b :: rest, h => by
      have htail : (b :: rest).Sorted (· ≤ ·) := (List.sorted_cons.mp h).2
      unfold uniquePass
      by_cases hab : a = b
      · rw [if_pos hab]
        exact uniquePass_nodup (b :: rest) htail
      · rw [if_neg hab]
        refine List.nodup_cons.mpr ⟨?_, uniquePass_nodup (b :: rest) htail⟩
        intro hmem
        have hmem' : a ∈ b :: rest := (mem_uniquePass _ _).mp hmem
        have hab' : a ≤ b := (List.sorted_cons.mp h).1 b (List.mem_cons_self _ _)
        rcases List.mem_cons.mp hmem' with rfl | hmem''
        · exact hab rfl
        · have hba : b ≤ a := (List.sorted_cons.mp htail).1 a hmem''
          exact hab (le_antisymm hab' hba)

/-- The stable sort + unique pass keeps exactly one entry per distinct
element. -/
theorem uniquePass_sort_length (l : List Nat) :
    (uniquePass (List.insertionSort (· ≤ ·) l)).length = l.toFinset.card := by
  have hsorted : (List.insertionSort (· ≤ ·) l).Sorted (· ≤ ·) :=
    List.sorted_insertionSort (· ≤ ·) l
  have hnd := uniquePass_nodup _ hsorted
  have hfin : (uniquePass (List.insertionSort (· ≤ ·) l)).toFinset = l.toFinset := by
    ext x
    simp only [List.mem_toFinset, mem_uniquePass]
    exact (List.perm_insertionSort (· ≤ ·) l).mem_iff
  calc (uniquePass (List.insertionSort (· ≤ ·) l)).length
      = (uniquePass (List.insertionSort (· ≤ ·) l)).toFinset.card :=
        (List.toFinset_card_of_nodup hnd).symm
    _ = l.toFinset.card := by rw [hfin]

theorem foldl_addToResidency (adds : List (Option GraphicsAllocation)) :
    ∀ c : CommandContainer,
      (adds.foldl CommandContainer.addToResidencyContainer c).residencyContainer =
        c.residencyContainer ++ adds.filterMap (fun o => o.map (fun a => a.id)) := by
  induction adds with
  | nil => intro c; simp
  | cons o rest ih =>
      intro c
      cases o with
      | none =>
          simp only [List.foldl_cons, List.filterMap_cons]
          exact ih c
      | some a =>
          simp only [List.foldl_cons, List.filterMap_cons, Option.map_some]
          rw [ih (c.addToResidencyContainer (some a))]
          show c.residencyContainer ++ [a.id] ++ _ = _
          simp

/-- C7: a null `addToResidencyContainer` argument is a no-op, every non-null
argument appends (duplicates included), and after
`removeDuplicatesFromResidencyContainer` the residency container holds
exactly one entry per distinct non-null allocation ever added. -/
theorem C7_residency_dedup (c0 : CommandContainer)
    (adds : List (Option GraphicsAllocation)) (h0 : c0.residencyContainer = []) :
    (c0.addToResidencyContainer none = c0) ∧
    (∀ (c : CommandContainer) (a : GraphicsAllocation),
        (c.addToResidencyContainer (some a)).residencyContainer =
          c.residencyContainer ++ [a.id]) ∧
    (CommandContainer.removeDuplicatesFromResidencyContainer
        (adds.foldl CommandContainer.addToResidencyContainer c0)).residencyContainer.length =
      (adds.filterMap (fun o => o.map (fun a => a.id))).toFinset.card := by
  refine ⟨rfl, fun c a => rfl, ?_⟩
  unfold CommandContainer.removeDuplicatesFromResidencyContainer
  dsimp only
  rw [foldl_addToResidency adds c0, h0]
  simp only [List.nil_append]
  exact uniquePass_sort_length _

/-- Concrete add sequence for the C7 witness: allocation 7 added twice,
then allocation 8, with a null add in between. -/
def c7Adds : List (Option GraphicsAllocation) :=
  [some (mkAllocation 7 64 .unknown), none, some (mkAllocation 7 64 .unknown),
   some (mkAllocation 8 64 .unknown)]

/-- Witness for C7: two distinct allocations remain after dedup. -/
theorem C7_witness :
    (CommandContainer.removeDuplicatesFromResidencyContainer
        (c7Adds.foldl CommandContainer.addToResidencyContainer {})).residencyContainer.length =
      (c7Adds.filterMap (fun o => o.map (fun a => a.id))).toFinset.card :=
  (C7_residency_dedup {} c7Adds rfl).2.2

/-! ### Claim C4 — allocation failure during initialization -/

/-- C4: if the memory manager can serve fewer allocations than
initialization needs (primary command buffer, optional secondary stream,
heap backings), `initialize` returns OUT_OF_DEVICE_MEMORY with no container,
and the manager received exactly one allocation call past its budget —
the failing one is not retried. -/
theorem C4_init_oom (c0 : CommandContainer) (al : Option (List GraphicsAllocation))
    (rh cs si : Bool) (n k : Nat) (hsh : c0.heapSharing = false)
    (hk : k < initAllocationAttempts rh cs si) :
    (initContainer c0 { nextId := n, successesLeft := some k } al rh cs si).1 =
      .outOfDeviceMemory ∧
    (initContainer c0 { nextId := n, successesLeft := some k } al rh cs si).2.1 = none ∧
    (initContainer c0 { nextId := n, successesLeft := some k } al rh cs si).2.2.allocateCalls =
      k + 1 := by
  cases rh <;> cases cs <;> cases si <;>
    simp only [initAllocationAttempts, Bool.false_eq_true, Bool.true_eq_false, if_true,
      if_false, ite_true, ite_false, Nat.add_zero, Nat.zero_add] at hk <;>
    interval_cases k <;>
    (unfold initContainer; rw [hsh]; exact ⟨rfl, rfl, rfl⟩)

/-- Witness for C4: a manager that can serve exactly one allocation fails a
full initialization with heaps after two calls. -/
theorem C4_witness :
    (initContainer {} { nextId := 0, successesLeft := some 1 } none true false true).1 =
      .outOfDeviceMemory ∧
    (initContainer {} { nextId := 0, successesLeft := some 1 } none true false true).2.2.allocateCalls =
      2 := by
  have h := C4_init_oom {} none true false true 0 1 rfl (by decide)
  exact ⟨h.1, h.2.2⟩

/-! ### Claim C6 — the destructor and the deallocation container -/

/-- Concrete container holding a non-heap allocation (id 99) in its
deallocation container, as in the destruction unit test. -/
def c6Container : CommandContainer :=
  { cmdBufferAllocations := [mkAllocation 0 defaultListCmdBufferSize .commandBuffer]
    hasHeapHelper := true
    deallocationContainer := [{ id := 99, size := 4096, allocType := .unknown,
                                gpuAddress := 0, cpuAddress := 0, taskCount := 0 }] }

/-- Counterexample to C6 as stated: destroying a container does not free the
non-heap allocation (id 99) held in its deallocation container. -/
theorem C6_counterexample :
    99 ∈ c6Container.deallocationContainer.map (fun a => a.id) ∧
    99 ∉ c6Container.destroyContainer.freedIds := by
  decide

/-- C6 (amended): destruction frees none of the deallocation-container
entries itself; entries of heap-backing type (internal-heap or
linear-stream) are stored into the heap helper's reuse pool when the helper
exists, and all other entries are left untouched. -/
theorem C6_destroy_dealloc (c : CommandContainer) (a : GraphicsAllocation)
    (ha : a ∈ c.deallocationContainer)
    (hdisj : ∀ b ∈ c.cmdBufferAllocations, b.id ≠ a.id) :
    a.id ∉ c.destroyContainer.freedIds ∧
    (c.hasHeapHelper = true →
      (a.allocType = .internalHeap ∨ a.allocType = .linearStream) →
      a ∈ c.destroyContainer.heapPool) := by
  constructor
  · intro hmem
    unfold CommandContainer.destroyContainer at hmem
    dsimp only at hmem
    split at hmem
    · cases hmem
    · simp only [List.mem_map] at hmem
      obtain ⟨b, hb, hid⟩ := hmem
      exact hdisj b hb hid
  · intro hh hty
    unfold CommandContainer.destroyContainer
    dsimp only
    refine List.mem_append_right _ ?_
    rw [List.mem_filter]
    refine ⟨ha, ?_⟩
    rcases hty with h1 | h1 <;> simp [hh, h1]

/-- Concrete container with a heap-typed deallocation entry for the C6
witness. -/
def c6wContainer : CommandContainer :=
  { cmdBufferAllocations := [mkAllocation 0 defaultListCmdBufferSize .commandBuffer]
    hasHeapHelper := true
    deallocationContainer := [mkAllocation 7 defaultHeapSize .linearStream] }

/-- Witness for C6 (amended) at a concrete container: the heap-typed entry
is not freed and lands in the reuse pool. -/
theorem C6_witness :
    (mkAllocation 7 defaultHeapSize .linearStream).id ∉
      c6wContainer.destroyContainer.freedIds ∧
    mkAllocation 7 defaultHeapSize .linearStream ∈
      c6wContainer.destroyContainer.heapPool := by
  have h := C6_destroy_dealloc c6wContainer (mkAllocation 7 defaultHeapSize .linearStream)
    (by decide) (by decide)
  exact ⟨h.1, h.2 rfl (Or.inr rfl)⟩

/-! ### Claim C1 — heap growth and the dirty bits -/

/-- Decidability of a property quantified over the content of an `Option`. -/
def decidableOptionForall {α : Type} (o : Option α) (P : α → Prop)
    [DecidablePred P] : Decidable (∀ x, o = some x → P x) :=
  match o with
  | none => isTrue (fun x hx => by cases hx)
  | some a =>
      if h : P a then isTrue (fun x hx => by cases hx; exact h)
      else isFalse (fun hall => h (hall a rfl))

instance (c : CommandContainer) (mm : MemoryManager) (t : HeapType) :
    Decidable (c.freshHeapBacking mm t) := by
  unfold CommandContainer.freshHeapBacking
  exact decidableOptionForall _ _

theorem popReusableHeapAlloc_mem (minSize : Nat) :
    ∀ (l : List GraphicsAllocation) (a : GraphicsAllocation) (rest : List GraphicsAllocation),
      popReusableHeapAlloc minSize l = some (a, rest) → a ∈ l
  | [], a, rest, h => by simp [popReusableHeapAlloc] at h
  | b :: l, a, rest, h => by
      unfold popReusableHeapAlloc at h
      split at h
      · cases h; exact List.mem_cons_self _ _
      · split at h
        · next x xs heq =>
            cases h
            exact List.mem_cons_of_mem _ (popReusableHeapAlloc_mem minSize l a xs heq)
        · cases h

theorem managerGpu_ne (i j : Nat) (hij : i ≠ j) :
    gpuAddrBase + i * allocGranule ≠ gpuAddrBase + j * allocGranule := by
  intro h
  exact hij (Nat.eq_of_mul_eq_mul_right (by decide : 0 < allocGranule)
    (Nat.add_left_cancel h))

theorem heapGpuBase_ioh (a : GraphicsAllocation) :
    heapGpuBase .indirectObject a = internalHeapBase := rfl

theorem heapGpuBase_not_ioh (t : HeapType) (ht : t ≠ .indirectObject)
    (a : GraphicsAllocation) : heapGpuBase t a = a.gpuAddress := by
  unfold heapGpuBase
  rw [if_neg ht]

/-- Growth through `createAndAssignNewHeap` leaves the indirect-object
heap's dirty bit (indeed the whole mask) alone, and sets the dirty bit of
any other heap type, whose GPU base follows the (fresh) backing
allocation. -/
theorem createAndAssign_dirty (c cA : CommandContainer) (mm mmA : MemoryManager)
    (t : HeapType) (ns : Nat) (ih0 : IndirectHeap)
    (h0 : c.getIndirectHeap t = some ih0)
    (hwf : c.freshHeapBacking mm t)
    (hok : createAndAssignNewHeap c mm t ns = some (cA, mmA)) :
    (t = .indirectObject → cA.dirtyHeaps = c.dirtyHeaps) ∧
    (t ≠ .indirectObject → cA.isHeapDirty t = true) := by
  obtain ⟨hfm, hpool⟩ := hwf ih0 h0
  unfold createAndAssignNewHeap at hok
  rw [h0] at hok
  dsimp only at hok
  split at hok
  · cases hok
  next newAlloc heqNew =>
    have hbase : t ≠ .indirectObject →
        heapGpuBase t ih0.alloc ≠ heapGpuBase t newAlloc := by
      intro ht
      rw [heapGpuBase_not_ioh t ht, heapGpuBase_not_ioh t ht]
      cases hpop : popReusableHeapAlloc ns c.heapReusePool with
      | some p =>
          rw [hpop] at heqNew
          cases heqNew
          have hm := popReusableHeapAlloc_mem ns c.heapReusePool p.1 p.2 hpop
          obtain ⟨hfm', hne⟩ := hpool p.1 hm
          rw [hfm.2.1, hfm'.2.1]
          exact managerGpu_ne _ _ (fun hx => hne hx.symm)
      | none =>
          rw [hpop] at heqNew
          have hgpu : newAlloc.gpuAddress = gpuAddrBase + mm.nextId * allocGranule := by
            unfold MemoryManager.allocate at heqNew
            cases hsl : mm.successesLeft with
            | none => rw [hsl] at heqNew; cases heqNew; rfl
            | some k =>
                cases k with
                | zero => rw [hsl] at heqNew; cases heqNew
                | succ k' => rw [hsl] at heqNew; cases heqNew; rfl
          rw [hfm.2.1, hgpu]
          exact managerGpu_ne _ _ (Nat.ne_of_lt hfm.1)
    by_cases ht : t = .indirectObject
    · subst ht
      rw [if_neg (by simp [heapGpuBase_ioh])] at hok
      cases hok
      refine ⟨fun _ => ?_, fun hne => absurd rfl hne⟩
      rw [dirtyHeaps_setIndirectHeap]
    · rw [if_pos (hbase ht)] at hok
      cases hok
      refine ⟨fun he => absurd he ht, fun _ => ?_⟩
      have : ∀ (c2 : CommandContainer), (c2.setHeapDirty t).isHeapDirty t = true :=
        fun c2 => isHeapDirty_setHeapDirty_self c2 t
      exact this _

/-- C1 (amended): `getHeapWithRequiredSizeAndAlignment` with sufficient
existing space never changes the dirty mask; when it must replace the
backing allocation it sets the dirty bit of the surface-state and
dynamic-state heaps (whose GPU base follows the backing allocation) but
leaves the indirect-object heap's dirty bit unchanged, its GPU base being
the fixed internal-heap base. -/
theorem C1_growth_dirty (c : CommandContainer) (mm : MemoryManager) (t : HeapType)
    (sz al : Nat) (ih0 r1 : IndirectHeap) (c' : CommandContainer) (mm' : MemoryManager)
    (h0 : c.getIndirectHeap t = some ih0)
    (hwf : c.freshHeapBacking mm t)
    (hok : c.getHeapWithRequiredSizeAndAlignment mm t sz al = some (r1, c', mm')) :
    (¬ ih0.availableSpace < paddedSizeRequired ih0 sz al → c'.dirtyHeaps = c.dirtyHeaps) ∧
    (ih0.availableSpace < paddedSizeRequired ih0 sz al → t = .indirectObject →
      c'.dirtyHeaps = c.dirtyHeaps) ∧
    (ih0.availableSpace < paddedSizeRequired ih0 sz al → t ≠ .indirectObject →
      c'.isHeapDirty t = true) := by
  unfold CommandContainer.getHeapWithRequiredSizeAndAlignment at hok
  rw [h0] at hok
  dsimp only at hok
  by_cases hgrow : ih0.availableSpace < paddedSizeRequired ih0 sz al
  · rw [if_pos hgrow] at hok
    split at hok
    · cases hok
    · split at hok
      · cases hok
      next cA mmA heqA =>
        split at hok
        · cases hok
        next h1 heq1 =>
          have hc' : cA.setIndirectHeap t (h1.alignCursor al) = c' :=
            congrArg (fun p => p.2.1) (Option.some.inj hok)
          obtain ⟨hioh, hother⟩ :=
            createAndAssign_dirty c cA mm mmA t _ ih0 h0 hwf heqA
          refine ⟨fun hng => absurd hgrow hng, ?_, ?_⟩
          · intro _ htioh
            rw [← hc', dirtyHeaps_setIndirectHeap]
            exact hioh htioh
          · intro _ htnot
            rw [← hc', isHeapDirty_setIndirectHeap]
            exact hother htnot
  · rw [if_neg hgrow] at hok
    cases hok
    refine ⟨fun _ => ?_, fun hg => absurd hg hgrow, fun hg => absurd hg hgrow⟩
    rw [dirtyHeaps_setIndirectHeap]

/-- Indirect-object heap nearly full: the next aligned request forces a
backing replacement.  Built over a manager whose next identity is 4. -/
def c1xHeap : IndirectHeap :=
  { alloc := mkAllocation 2 defaultHeapSize .internalHeap, maxSize := defaultHeapSize,
    used := defaultHeapSize - 16, heapType := .indirectObject }

/-- Container for the C1 counterexample (all dirty bits cleared). -/
def c1xContainer : CommandContainer := { iohHeap := some c1xHeap, dirtyHeaps := 0 }

/-- Manager for the C1 scenarios. -/
def c1xMM : MemoryManager := { nextId := 4 }

/-- Counterexample to C1 as stated: growing the indirect-object heap
replaces its backing allocation (the identities differ) yet leaves
`isHeapDirty(INDIRECT_OBJECT)` false. -/
theorem C1_counterexample :
    c1xHeap.availableSpace < paddedSizeRequired c1xHeap 32 32 ∧
    (c1xContainer.getHeapWithRequiredSizeAndAlignment c1xMM .indirectObject 32 32).map
        (fun r => (r.2.1.isHeapDirty .indirectObject,
                   decide (r.1.alloc.id = c1xHeap.alloc.id))) = some (false, false) := by
  decide

/-- Surface-state analogue of `c1xHeap` for the C1 witness. -/
def c1wHeap : IndirectHeap :=
  { alloc := mkAllocation 2 defaultHeapSize .linearStream, maxSize := defaultHeapSize,
    used := defaultHeapSize - 16, heapType := .surfaceState }

/-- Container for the C1 witness (all dirty bits cleared). -/
def c1wContainer : CommandContainer := { sshHeap := some c1wHeap, dirtyHeaps := 0 }

/-- Result of growing the surface-state heap in the C1 witness scenario. -/
def c1wTriple : IndirectHeap × CommandContainer × MemoryManager :=
  (c1wContainer.getHeapWithRequiredSizeAndAlignment c1xMM .surfaceState 32 32).getD
    (c1wHeap, c1wContainer, c1xMM)

/-- Witness for C1 (amended): growing the surface-state heap sets its dirty
bit. -/
theorem C1_witness : c1wTriple.2.1.isHeapDirty .surfaceState = true := by
  have h := C1_growth_dirty c1wContainer c1xMM .surfaceState 32 32 c1wHeap
    c1wTriple.1 c1wTriple.2.1 c1wTriple.2.2 rfl (by decide) (by decide)
  exact h.2.2 (by decide) (by decide)

/-! ### Claim C2 — heap sharing and direct heap acquisition -/

theorem getSpace_isSome_of_le (h : IndirectHeap) (n : Nat)
    (hinv : h.used ≤ h.maxSize) (hle : n ≤ h.availableSpace) :
    (h.getSpace n).isSome = true := by
  unfold IndirectHeap.getSpace LinearStream.getSpace
  rw [if_pos]
  · rfl
  · unfold LinearStream.availableSpace at hle
    omega

theorem getSpace_alloc (h : IndirectHeap) (n ptr : Nat) (h2 : IndirectHeap)
    (hg : h.getSpace n = some (ptr, h2)) : h2.alloc = h.alloc := by
  unfold IndirectHeap.getSpace at hg
  split at hg
  · cases hg
  next q s heq =>
    cases hg
    unfold LinearStream.getSpace at heq
    split at heq
    · cases heq; rfl
    · cases heq

/-- C2 (amended): with heap sharing enabled, a direct
`getHeapWithRequiredSizeAndAlignment` or `getHeapSpaceAllowGrow` on a shared
heap type throws exactly when the shared heap has not been reserved yet
(null) or the request exceeds the remaining space (growth would be needed);
requests that fit the already-reserved shared heap succeed, and a
successful direct call never replaces the shared heap's backing
allocation. -/
theorem C2_shared_heap_guard (c : CommandContainer) (mm : MemoryManager) (t : HeapType)
    (sz al : Nat) (hsh : c.heapSharing = true)
    (ht : t = .surfaceState ∨ t = .dynamicState) :
    (c.getIndirectHeap t = none →
      c.getHeapWithRequiredSizeAndAlignment mm t sz al = none ∧
      c.getHeapSpaceAllowGrow mm t sz = none) ∧
    (∀ h, c.getIndirectHeap t = some h → h.used ≤ h.maxSize →
      (c.getHeapWithRequiredSizeAndAlignment mm t sz al = none ↔
        h.availableSpace < paddedSizeRequired h sz al) ∧
      (c.getHeapSpaceAllowGrow mm t sz = none ↔ h.availableSpace < sz)) ∧
    (∀ h r, c.getIndirectHeap t = some h →
      c.getHeapWithRequiredSizeAndAlignment mm t sz al = some r →
      r.1.alloc = h.alloc ∧
      (r.2.1.getIndirectHeap t).map (fun x => x.alloc) = some h.alloc) ∧
    (∀ h r, c.getIndirectHeap t = some h →
      c.getHeapSpaceAllowGrow mm t sz = some r →
      (r.2.1.getIndirectHeap t).map (fun x => x.alloc) = some h.alloc) := by
  have hshared : c.immediateCmdListSharedHeap t = true := by
    rcases ht with rfl | rfl <;>
      simp [CommandContainer.immediateCmdListSharedHeap, hsh]
  refine ⟨?_, ?_, ?_, ?_⟩
  · intro hnone
    constructor
    · unfold CommandContainer.getHeapWithRequiredSizeAndAlignment
      rw [hnone]
    · unfold CommandContainer.getHeapSpaceAllowGrow
      rw [hnone]
  · intro h heq hinv
    constructor
    · unfold CommandContainer.getHeapWithRequiredSizeAndAlignment
      rw [heq]
      dsimp only
      by_cases hg : h.availableSpace < paddedSizeRequired h sz al
      · rw [if_pos hg, if_pos hshared]
        simp [hg]
      · rw [if_neg hg]
        simp [hg]
    · unfold CommandContainer.getHeapSpaceAllowGrow
      rw [heq]
      dsimp only
      by_cases hg : h.availableSpace < sz
      · rw [if_pos hg, if_pos hshared]
        simp [hg]
      · rw [if_neg hg]
        obtain ⟨p, hp⟩ := Option.isSome_iff_exists.mp
          (getSpace_isSome_of_le h sz hinv (Nat.le_of_not_lt hg))
        rw [hp]
        simp [hg]
  · intro h r heq hok
    unfold CommandContainer.getHeapWithRequiredSizeAndAlignment at hok
    rw [heq] at hok
    dsimp only at hok
    split at hok
    · cases hok
    · have h1 := Option.some.inj hok
      have hr1 : h.alignCursor al = r.1 := congrArg (fun p => p.1) h1
      have hr2 : c.setIndirectHeap t (h.alignCursor al) = r.2.1 :=
        congrArg (fun p => p.2.1) h1
      constructor
      · rw [← hr1]
        exact alignCursor_alloc h al
      · rw [← hr2, getIndirectHeap_setIndirectHeap_same]
        simp [alignCursor_alloc]
  · intro h r heq hok
    unfold CommandContainer.getHeapSpaceAllowGrow at hok
    rw [heq] at hok
    dsimp only at hok
    split at hok
    · cases hok
    · split at hok
      · cases hok
      next q h2 heqS =>
        have h1 := Option.some.inj hok
        have hr2 : c.setIndirectHeap t h2 = r.2.1 := congrArg (fun p => p.2.1) h1
        rw [← hr2, getIndirectHeap_setIndirectHeap_same]
        simp [getSpace_alloc h sz q h2 heqS]

/-- Heap-sharing immediate-list initialization for the C2 scenarios. -/
def c2Init : ErrorCode × Option CommandContainer × MemoryManager :=
  initContainer { heapSharing := true, hasImmediateCsr := true } {} none true false true

/-- The shared-heap container after initialization (surface-state and
dynamic-state heaps still null). -/
def c2Container : CommandContainer := c2Init.2.1.getD {}

/-- Shared-heap container and manager after the first
`reserveSpaceForDispatch` call (surface-state only, zero size). -/
def c2AfterReserve : CommandContainer × MemoryManager :=
  (c2Container.reserveSpaceForDispatch c2Init.2.2 0 64 0 64 false).getD ({}, {})

/-- Counterexample to C2 as stated: after `reserveSpaceForDispatch` has set
up the shared surface-state heap, a direct `getHeapSpaceAllowGrow` call that
fits does not throw — so not *every* direct call on a shared heap type is a
precondition violation. -/
theorem C2_counterexample :
    c2AfterReserve.1.heapSharing = true ∧
    (c2AfterReserve.1.getHeapSpaceAllowGrow c2AfterReserve.2 .surfaceState 0).isSome = true := by
  decide

/-- The shared surface-state heap after the first reservation. -/
def c2SharedHeap : IndirectHeap :=
  (c2AfterReserve.1.getIndirectHeap .surfaceState).getD
    { alloc := mkAllocation 0 0 .unknown, maxSize := 0, used := 0, heapType := .surfaceState }

/-- Witness for C2 (amended) at the concrete shared container: a request
larger than the remaining shared space throws. -/
theorem C2_witness :
    c2AfterReserve.1.getHeapSpaceAllowGrow c2AfterReserve.2 .surfaceState
      (defaultHeapSize + 1) = none := by
  have h := C2_shared_heap_guard c2AfterReserve.1 c2AfterReserve.2 .surfaceState
    (defaultHeapSize + 1) 0 (by decide) (Or.inl rfl)
  exact ((h.2.1 c2SharedHeap (by decide) (by decide)).2).mpr (by decide)
